import Mathlib

/-!
Shallow embedding of the "katalama-botu" trading engine core:
the risk governor (`risk-manager.js`: `canTrade`, `recordPnL`, `lockBot`,
`checkDayReset`) and the futures position lifecycle (`determineLeverage`,
`calculatePositionSize`, `calculateSLTP`, `monitorPositions`, `closePosition`).
Prices, balances and percentages are modelled as rationals; the JS `Map` of
open positions as an association list; wall-clock time as natural-number
minutes with local days of `minutesPerDay` minutes; JS `null`/`undefined`
number fields as `Option ℚ`, with the JS falsiness of `0` made explicit.
-/

namespace Katlama

/-- Settings read through `getSettingNum`, with their source defaults.
Percentages are kept in the 0–100 scale the settings store uses. -/
structure Config where
  maxDailyLossPct : ℚ
  maxMarginUsagePct : ℚ
  minRRRatio : ℚ
  maxPositionRiskPct : ℚ
  maxLeverage : ℚ
  defaultLeverage : ℚ
  trailingActivatePct : ℚ
  trailingDistancePct : ℚ
  partialClosePct : ℚ
  partialCloseAmountPct : ℚ
  initialBalance : ℚ
deriving DecidableEq, Repr

/-- The `getSettingNum` defaults: 10% daily loss, 50% margin cap, 2.5 min R:R,
3% position risk, max leverage 4, default leverage 2, trailing activate 2%,
trailing distance 1.5%, partial close at 4% closing 50%, $100 balance. -/
def defaultConfig : Config :=
  ⟨10, 50, 5/2, 3, 4, 2, 2, 3/2, 4, 50, 100⟩

/-- The defaults with `risk.max_margin_usage_pct` configured to 100, so the
margin cap does not bind on the worked sizing example. -/
def uncappedConfig : Config :=
  ⟨10, 100, 5/2, 3, 4, 2, 2, 3/2, 4, 50, 100⟩

inductive Direction
  | long
  | short
deriving DecidableEq, Repr

/-- `Math.abs` (kernel-reducible form of `|·|` on `ℚ`). -/
def absQ (x : ℚ) : ℚ := if x < 0 then -x else x

/-- `Math.min` (kernel-reducible form of `min` on `ℚ`). -/
def minQ (x y : ℚ) : ℚ := if x ≤ y then x else y

/-- `Math.max` (kernel-reducible form of `max` on `ℚ`). -/
def maxQ (x y : ℚ) : ℚ := if x ≤ y then y else x

/-- JS coercion `x || null` applied to a nullable number: `0` is falsy,
so an ATR% of exactly `0` becomes `null`. -/
def coerceFalsy (x : Option ℚ) : Option ℚ :=
  match x with
  | some a => if a = 0 then none else some a
  | none => none

/-- `atrPct !== null && atrPct < c` from `determineLeverage`. -/
def atrBelow (atrPct : Option ℚ) (c : ℚ) : Bool :=
  match atrPct with
  | some a => decide (a < c)
  | none => false

/-- `atrPct !== null && atrPct > c` from `determineLeverage`. -/
def atrAbove (atrPct : Option ℚ) (c : ℚ) : Bool :=
  match atrPct with
  | some a => decide (c < a)
  | none => false

/-- The mode label attached to a leverage decision
(`GÜVEN 4x`, `Normal 2x (Yüksek Volatilite)`, `Normal Nx`). -/
inductive LeverageMode
  | boosted
  | highVol
  | normal
deriving DecidableEq, Repr

structure LeverageDecision where
  leverage : ℚ
  mode : LeverageMode
deriving DecidableEq, Repr

/-- `determineLeverage(score, atrPct)`: the boosted tier `min(4, maxLeverage)`
only when `score >= 9 && atrPct !== null && atrPct < 2`; a forced `2` when
`atrPct !== null && atrPct > 3`; otherwise the configured default. -/
def determineLeverage (cfg : Config) (score : ℤ) (atrPct : Option ℚ) :
    LeverageDecision :=
  if 9 ≤ score ∧ atrBelow atrPct 2 = true then
    ⟨minQ 4 cfg.maxLeverage, LeverageMode.boosted⟩
  else if atrAbove atrPct 3 = true then
    ⟨2, LeverageMode.highVol⟩
  else
    ⟨cfg.defaultLeverage, LeverageMode.normal⟩

/-- The record returned by `calculatePositionSize` (numeric fields only;
`stopDistance` is kept as a fraction rather than the formatted percent
string). -/
structure Sizing where
  riskUSD : ℚ
  stopDistance : ℚ
  positionValue : ℚ
  margin : ℚ
  amount : ℚ
  leverage : ℚ
deriving DecidableEq, Repr

/-- `calculatePositionSize(balance, entryPrice, stopLossPrice, leverage)`:
risk budget `balance × maxRiskPct`; `null` when the stop distance is zero;
margin `notional / leverage` capped at `balance × maxMarginPct`, with the
notional and amount recomputed from the capped margin. -/
def calculatePositionSize (cfg : Config)
    (balance entryPrice stopLossPrice leverage : ℚ) : Option Sizing :=
  let maxRiskPct := cfg.maxPositionRiskPct / 100
  let maxMarginPct := cfg.maxMarginUsagePct / 100
  let riskUSD := balance * maxRiskPct
  let stopDistance := absQ (entryPrice - stopLossPrice) / entryPrice
  if stopDistance = 0 then none
  else
    let positionValue := riskUSD / stopDistance
    let margin := positionValue / leverage
    let maxMargin := balance * maxMarginPct
    let actualMargin := minQ margin maxMargin
    let actualPositionValue := actualMargin * leverage
    let amount := actualPositionValue / entryPrice
    some ⟨riskUSD, stopDistance, actualPositionValue, actualMargin, amount, leverage⟩

/-- The Bollinger band levels consulted by `calculateSLTP`. -/
structure Bollinger where
  upper : ℚ
  lower : ℚ
deriving DecidableEq, Repr

/-- The stop-loss / take-profit pair returned by `calculateSLTP`
(numeric fields; the formatted distance/ratio strings are derived data). -/
structure SLTP where
  stopLoss : ℚ
  takeProfit : ℚ
deriving DecidableEq, Repr

/-- The stop/target pair of `calculateSLTP` as computed just before the
Risk:Reward check: ATR-based and percentage-based candidate distances, the
stop taking the tighter and the target the wider, then both clamped against
the Bollinger band edges (with the 0.2% buffer) when available. -/
def sltpPreRR (direction : Direction) (entryPrice atr : ℚ)
    (bollinger : Option Bollinger) : SLTP :=
  let atrSL := atr * (3/2)
  let atrTP := atr * (7/2)
  let pctSL := entryPrice * (2/100)
  let pctTP := entryPrice * (7/100)
  match direction with
  | Direction.long =>
    let slDist := minQ atrSL pctSL
    let sl0 := entryPrice - slDist
    let tpDist := maxQ atrTP pctTP
    let tp0 := entryPrice + tpDist
    let sl1 := match bollinger with
      | some bb => if sl0 < bb.lower then bb.lower * (998/1000) else sl0
      | none => sl0
    let tp1 := match bollinger with
      | some bb => if bb.upper < tp0 then bb.upper * (1002/1000) else tp0
      | none => tp0
    ⟨sl1, tp1⟩
  | Direction.short =>
    let slDist := minQ atrSL pctSL
    let sl0 := entryPrice + slDist
    let tpDist := maxQ atrTP pctTP
    let tp0 := entryPrice - tpDist
    let sl1 := match bollinger with
      | some bb => if bb.upper < sl0 then bb.upper * (1002/1000) else sl0
      | none => sl0
    let tp1 := match bollinger with
      | some bb => if tp0 < bb.lower then bb.lower * (998/1000) else tp0
      | none => tp0
    ⟨sl1, tp1⟩

/-- `calculateSLTP(direction, entryPrice, atr, bollinger)`: the candidate
pair of `sltpPreRR`, then the Risk:Reward check — `rrRatio` is
`tpDist / slDist` when `slDist > 0` and `0` otherwise, and when it is below
`risk.min_rr_ratio` the take-profit is re-placed at
`slDist * minRR` from entry while the stop-loss is left as it is. -/
def calculateSLTP (cfg : Config) (direction : Direction) (entryPrice atr : ℚ)
    (bollinger : Option Bollinger) : SLTP :=
  let pre := sltpPreRR direction entryPrice atr bollinger
  let slDist := absQ (entryPrice - pre.stopLoss)
  let tpDist := absQ (entryPrice - pre.takeProfit)
  let rrRatio := if 0 < slDist then tpDist / slDist else 0
  if rrRatio < cfg.minRRRatio then
    let adjustedTPDist := slDist * cfg.minRRRatio
    match direction with
    | Direction.long => ⟨pre.stopLoss, entryPrice + adjustedTPDist⟩
    | Direction.short => ⟨pre.stopLoss, entryPrice - adjustedTPDist⟩
  else pre

/-! ## Risk governor (`risk-manager.js`) -/

/-- Minutes in a local day; wall-clock time is a minute count `t : ℕ`,
`toDateString` equality is equality of `dayOf`, and midnight of the next
day is `(dayOf t + 1) * minutesPerDay`. -/
def minutesPerDay : ℕ := 1440

/-- The local day of a wall-clock instant. -/
def dayOf (t : ℕ) : ℕ := t / minutesPerDay

/-- `RiskManager` instance state together with the persisted settings it
drives: `bot.locked` / `bot.lock_until` (the empty `lock_until` string is
`none`). -/
structure RiskState where
  dailyPnL : ℚ
  dailyTradeCount : ℕ
  tradeHistory : List Bool
  maxDrawdown : ℚ
  peakBalance : ℚ
  currentDay : ℕ
  locked : Bool
  lockUntil : Option ℕ
deriving DecidableEq, Repr

/-- `checkDayReset()`: on a new local day, zero the daily counters and, if
the bot is locked with an expired `lock_until`, release the lock. -/
def checkDayReset (t : ℕ) (s : RiskState) : RiskState :=
  if dayOf t ≠ s.currentDay then
    let s1 := { s with dailyPnL := 0, dailyTradeCount := 0, currentDay := dayOf t }
    if s1.locked then
      match s1.lockUntil with
      | some u =>
        if u ≤ t then { s1 with locked := false, lockUntil := none } else s1
      | none => s1
    else s1
  else s

/-- `lockBot(reason)`: set `bot.locked` and `bot.lock_until` to midnight at
the start of the next local day. -/
def lockBot (t : ℕ) (s : RiskState) : RiskState :=
  { s with locked := true, lockUntil := some ((dayOf t + 1) * minutesPerDay) }

/-- The optional `tradeConfig` argument of `canTrade`; each field is a
nullable number, absent fields are `none`. -/
structure TradeConfig where
  balance : Option ℚ
  margin : Option ℚ
  rrRatio : Option ℚ
deriving DecidableEq, Repr

/-- The empty `tradeConfig = {}` that `openPosition` passes
(`this.riskManager.canTrade()`). -/
def emptyTradeConfig : TradeConfig := ⟨none, none, none⟩

/-- `tradeConfig.balance || getSettingNum('bot.initial_balance', 100)`. -/
def balanceOf (cfg : Config) (tc : TradeConfig) : ℚ :=
  match coerceFalsy tc.balance with
  | some b => b
  | none => cfg.initialBalance

/-- The margin-cap clause of `canTrade`: it runs only when the context
carries truthy `margin` and `balance` fields
(`if (tradeConfig.margin && tradeConfig.balance)`). -/
def marginDenied (cfg : Config) (tc : TradeConfig) : Bool :=
  match coerceFalsy tc.margin, coerceFalsy tc.balance with
  | some m, some b => decide (b * (cfg.maxMarginUsagePct / 100) < m)
  | _, _ => false

/-- The Risk:Reward clause of `canTrade`: it runs only when the context
carries a truthy `rrRatio` (`if (tradeConfig.rrRatio)`). -/
def rrDenied (cfg : Config) (tc : TradeConfig) : Bool :=
  match coerceFalsy tc.rrRatio with
  | some rr => decide (rr < cfg.minRRRatio)
  | none => false

/-- `canTrade(tradeConfig = {})`: run `checkDayReset`; deny while locked;
deny (and lock) when `dailyPnL` has breached `-(balance * maxDailyLossPct)`;
then the conditional margin-cap and Risk:Reward clauses. Returns the
decision together with the updated state. -/
def canTrade (cfg : Config) (t : ℕ) (tc : TradeConfig) (s0 : RiskState) :
    Bool × RiskState :=
  let s := checkDayReset t s0
  if s.locked then (false, s)
  else
    let balance := balanceOf cfg tc
    let maxDailyLoss := balance * (cfg.maxDailyLossPct / 100)
    if s.dailyPnL < -maxDailyLoss then (false, lockBot t s)
    else if marginDenied cfg tc then (false, s)
    else if rrDenied cfg tc then (false, s)
    else (true, s)

/-- The gate call `openPosition` makes before opening a position:
`this.riskManager.canTrade()`, i.e. `canTrade` with the empty context. -/
def openPositionGate (cfg : Config) (t : ℕ) (s : RiskState) : Bool × RiskState :=
  canTrade cfg t emptyTradeConfig s

/-- `recordPnL(pnl)`: accumulate `dailyPnL`, push a win/loss into the
bounded 50-entry history, ratchet peak balance and max drawdown, and lock
the bot when the updated `dailyPnL` breaches the daily loss limit. -/
def recordPnL (cfg : Config) (t : ℕ) (pnl : ℚ) (s0 : RiskState) : RiskState :=
  let hist := s0.tradeHistory ++ [decide (0 ≤ pnl)]
  let hist := if 50 < hist.length then hist.tail else hist
  let s1 := { s0 with
    dailyPnL := s0.dailyPnL + pnl,
    dailyTradeCount := s0.dailyTradeCount + 1,
    tradeHistory := hist }
  let balance := cfg.initialBalance + s1.dailyPnL
  let peak := if s1.peakBalance < balance then balance else s1.peakBalance
  let drawdown := ((peak - balance) / peak) * 100
  let s2 := { s1 with
    peakBalance := peak,
    maxDrawdown := if s1.maxDrawdown < drawdown then drawdown else s1.maxDrawdown }
  let maxDailyLoss := cfg.initialBalance * (cfg.maxDailyLossPct / 100)
  if s2.dailyPnL < -maxDailyLoss then lockBot t s2 else s2

/-! ## Position lifecycle (`FuturesEngine`) -/

/-- An entry of `this.positions` (symbol-keyed `Map`): the mutable per-
position record created by `openPosition`. Identity and audit fields
(`id`, `layers`, `orderId`, `openedAt`, …) are omitted as inert. -/
structure Position where
  direction : Direction
  entryPrice : ℚ
  currentPrice : ℚ
  amount : ℚ
  leverage : ℚ
  stopLoss : ℚ
  takeProfit : ℚ
  trailingStopActive : Bool
  trailingStopPrice : Option ℚ
  partialClosed : Bool
  pnl : ℚ
  pnlPct : ℚ
deriving DecidableEq, Repr

/-- The start of a monitor tick: refresh `currentPrice` and recompute
`pnl` / leverage-scaled `pnlPct`. -/
def updatePnl (p : Position) (price : ℚ) : Position :=
  match p.direction with
  | Direction.long =>
    { p with currentPrice := price,
             pnl := (price - p.entryPrice) * p.amount,
             pnlPct := ((price - p.entryPrice) / p.entryPrice) * 100 * p.leverage }
  | Direction.short =>
    { p with currentPrice := price,
             pnl := (p.entryPrice - price) * p.amount,
             pnlPct := ((p.entryPrice - price) / p.entryPrice) * 100 * p.leverage }

/-- `hitSL`: `currentPrice <= stopLoss` for a long,
`currentPrice >= stopLoss` for a short. -/
def hitSL (p : Position) (price : ℚ) : Bool :=
  match p.direction with
  | Direction.long => decide (price ≤ p.stopLoss)
  | Direction.short => decide (p.stopLoss ≤ price)

/-- `hitTP`: `currentPrice >= takeProfit` for a long,
`currentPrice <= takeProfit` for a short. -/
def hitTP (p : Position) (price : ℚ) : Bool :=
  match p.direction with
  | Direction.long => decide (p.takeProfit ≤ price)
  | Direction.short => decide (price ≤ p.takeProfit)

/-- Trailing activation: when `pnlPct` reaches the activation threshold and
trailing is not yet active, set the initial trailing stop one configured
distance from the current price. -/
def maybeActivateTrailing (cfg : Config) (p : Position) (price : ℚ) : Position :=
  if cfg.trailingActivatePct ≤ p.pnlPct ∧ p.trailingStopActive = false then
    let distance := price * (cfg.trailingDistancePct / 100)
    { p with trailingStopActive := true,
             trailingStopPrice := some (match p.direction with
               | Direction.long => price - distance
               | Direction.short => price + distance) }
  else p

/-- The trailing ratchet: replace the trailing stop by the new candidate
only when the candidate is strictly more favorable. -/
def ratchetTrailing (cfg : Config) (p : Position) (price : ℚ) : Position :=
  let distance := price * (cfg.trailingDistancePct / 100)
  match p.direction, p.trailingStopPrice with
  | Direction.long, some t =>
    if t < price - distance then { p with trailingStopPrice := some (price - distance) } else p
  | Direction.short, some t =>
    if price + distance < t then { p with trailingStopPrice := some (price + distance) } else p
  | _, none => p

/-- A breach of the (already ratcheted) trailing stop. -/
def trailingBreached (p : Position) (price : ℚ) : Bool :=
  match p.direction, p.trailingStopPrice with
  | Direction.long, some t => decide (price ≤ t)
  | Direction.short, some t => decide (t ≤ price)
  | _, none => false

/-- The partial-close block: when `pnlPct` reaches the threshold and the
one-shot flag is clear, place the reduce-only order (success given by
`orderOk`; the JS `catch` leaves the position untouched on failure) and on
success cut `amount`, set `partialClosed` and ratchet `stopLoss` to the
breakeven `entryPrice`. -/
def maybePartialClose (cfg : Config) (orderOk : Bool) (p : Position) : Position :=
  if cfg.partialClosePct ≤ p.pnlPct ∧ p.partialClosed = false then
    if orderOk then
      let closeAmount := p.amount * (cfg.partialCloseAmountPct / 100)
      { p with amount := p.amount - closeAmount,
               partialClosed := true,
               stopLoss := p.entryPrice }
    else p
  else p

/-- Why `monitorPositions` handed a position to `closePosition`. -/
inductive CloseReason
  | stopLossHit
  | takeProfitHit
  | trailingStopHit
deriving DecidableEq, Repr

/-- Outcome of one monitor tick on one position: either it was handed to
`closePosition` (carrying the in-place-mutated record), or it stays open. -/
inductive TickResult
  | closing (reason : CloseReason) (pos : Position)
  | stillOpen (pos : Position)
deriving DecidableEq, Repr

/-- The position record as the tick leaves it, whether or not a close was
initiated (the JS mutates the record in place). -/
def TickResult.pos : TickResult → Position
  | TickResult.closing _ p => p
  | TickResult.stillOpen p => p

/-- One `monitorPositions` iteration for a single position at ticker price
`price`: P&L refresh, stop-loss check, take-profit check, trailing
activation, trailing ratchet and breach check, then the partial-close
block. `partialOrderOk` is whether the reduce-only partial-close order
succeeds if placed. -/
def monitorStep (cfg : Config) (partialOrderOk : Bool) (p0 : Position)
    (price : ℚ) : TickResult :=
  let p1 := updatePnl p0 price
  if hitSL p1 price then TickResult.closing CloseReason.stopLossHit p1
  else if hitTP p1 price then TickResult.closing CloseReason.takeProfitHit p1
  else
    let p2 := maybeActivateTrailing cfg p1 price
    if p2.trailingStopActive then
      let p3 := ratchetTrailing cfg p2 price
      if trailingBreached p3 price then TickResult.closing CloseReason.trailingStopHit p3
      else TickResult.stillOpen (maybePartialClose cfg partialOrderOk p3)
    else TickResult.stillOpen (maybePartialClose cfg partialOrderOk p2)

/-- The position state at the end of a tick (used to chain ticks). -/
def stepPos (cfg : Config) (ok : Bool) (price : ℚ) (p : Position) : Position :=
  (monitorStep cfg ok p price).pos

/-- `this.positions`, the symbol-keyed `Map` of open positions,
as an association list. -/
def Positions := List (String × Position)

/-- `Map.get`. -/
def lookupPos (sym : String) : List (String × Position) → Option Position
  | [] => none
  | e :: r => if e.1 = sym then some e.2 else lookupPos sym r

/-- `Map.set` on an existing key (the JS mutates the stored record in
place, so the key set is unchanged). -/
def storePos (sym : String) (p : Position) :
    List (String × Position) → List (String × Position)
  | [] => []
  | e :: r => if e.1 = sym then (sym, p) :: r else e :: storePos sym p r

/-- `Map.delete`. -/
def erasePos (sym : String) : List (String × Position) → List (String × Position)
  | [] => []
  | e :: r => if e.1 = sym then erasePos sym r else e :: erasePos sym r

/-- How far a `closePosition(symbol, reason, closePrice)` call got:
the offsetting `createOrder` threw; the order was placed but a later await
in the `try` block threw; or the whole block ran to `positions.delete`. -/
inductive CloseOutcome
  | orderFailed
  | laterFailed
  | completed
deriving DecidableEq, Repr

/-- Engine state touched by `closePosition`: the open-position map and the
engine's own `dailyPnL` accumulator. -/
structure EngineState where
  positions : List (String × Position)
  dailyPnL : ℚ
deriving DecidableEq, Repr

/-- Realized P&L of a full close at `closePrice`. -/
def finalPnL (p : Position) (closePrice : ℚ) : ℚ :=
  match p.direction with
  | Direction.long => (closePrice - p.entryPrice) * p.amount
  | Direction.short => (p.entryPrice - closePrice) * p.amount

/-- `closePosition(symbol, reason, closePrice)`: no-op on an unknown
symbol; if the offsetting `createOrder` throws, the `catch` leaves all
state unchanged; once the order is placed, `dailyPnL` is updated, and the
position is deleted from the map only when the rest of the `try` block also
completes. The position record itself is never mutated here. -/
def closePosition (outcome : CloseOutcome) (sym : String) (closePrice : ℚ)
    (st : EngineState) : EngineState :=
  match lookupPos sym st.positions with
  | none => st
  | some pos =>
    match outcome with
    | CloseOutcome.orderFailed => st
    | CloseOutcome.laterFailed =>
      { st with dailyPnL := st.dailyPnL + finalPnL pos closePrice }
    | CloseOutcome.completed =>
      { st with positions := erasePos sym st.positions,
                dailyPnL := st.dailyPnL + finalPnL pos closePrice }

/-- One `monitorPositions` iteration for `sym` at the engine level: run the
tick on the stored record (mutating it in place) and, when the tick decides
to close, run `closePosition` with outcome `closeOutcome`. -/
def monitorClose (cfg : Config) (closeOutcome : CloseOutcome)
    (partialOk : Bool) (sym : String) (price : ℚ) (st : EngineState) :
    EngineState :=
  match lookupPos sym st.positions with
  | none => st
  | some pos =>
    match monitorStep cfg partialOk pos price with
    | TickResult.closing _ p1 =>
      closePosition closeOutcome sym price
        { st with positions := storePos sym p1 st.positions }
    | TickResult.stillOpen p1 =>
      { st with positions := storePos sym p1 st.positions }

/-- A sequence of monitor ticks on one position: each element gives the
partial-close order outcome and the ticker price of that tick. -/
def runTicks (cfg : Config) (p : Position) : List (Bool × ℚ) → Position
  | [] => p
  | bp :: rest => runTicks cfg (stepPos cfg bp.1 bp.2 p) rest

/-- A normally-opened long position: entry 100, protective stop 98,
take-profit 200, leverage 2, quantity 1. -/
def examplePos : Position :=
  ⟨Direction.long, 100, 100, 1, 2, 98, 200, false, none, false, 0, 0⟩

/-- A long position whose trailing stop is active at 100
(entry 100, stop 90, take-profit 200, already partially closed). -/
def trailingPos : Position :=
  ⟨Direction.long, 100, 100, 1, 2, 90, 200, true, some 100, true, 0, 0⟩

/-- The long position `openPosition` builds from the Bollinger-clamped
pair `calculateSLTP(long, 100, 1, {upper := 120, lower := 110})`: the clamp
has placed the initial stop-loss 109.78 above the entry price 100. -/
def bollingerClampedPos : Position :=
  ⟨Direction.long, 100, 100, 1, 2, 5489/50, 12445/100, false, none, false, 0, 0⟩

/-- An engine holding one open position on symbol `"BTC/USDT"` whose
stop-loss 98 is about to be hit. -/
def engineWithOpenPos : EngineState :=
  ⟨[("BTC/USDT", examplePos)], 0⟩

/-- A risk state on local day 5 whose `dailyPnL` of −11 has breached the
default −(100 × 10%) = −10 daily loss limit, not yet locked. -/
def breachedState : RiskState := ⟨-11, 3, [], 0, 100, 5, false, none⟩

/-- A trade context that passes every explicit `canTrade` check at the
default settings: balance 100, margin 10 ≤ 50, R:R 3 ≥ 2.5. -/
def qualifyingContext : TradeConfig := ⟨some 100, some 10, some 3⟩

/-- The trailing stop value of a position, 0 when unset. -/
def tslD (p : Position) : ℚ := p.trailingStopPrice.getD 0

/-- `examplePos` as one monitor tick at price 104 leaves it: trailing stop
active at 102.44, half the quantity closed, stop ratcheted to breakeven. -/
def partialClosedPos : Position :=
  ⟨Direction.long, 100, 104, 1/2, 2, 100, 200, true, some (2561/25), true, 4, 8⟩

/-! ## Theorems -/

theorem absQ_eq_abs (x : ℚ) : absQ x = |x| := by
  unfold absQ
  rcases lt_or_le x 0 with h | h
  · rw [if_pos h, abs_of_neg h]
  · rw [if_neg (not_lt.mpr h), abs_of_nonneg h]

theorem minQ_eq_min (x y : ℚ) : minQ x y = min x y := by
  unfold minQ
  rcases le_or_lt x y with h | h
  · rw [if_pos h, min_eq_left h]
  · rw [if_neg (not_le.mpr h), min_eq_right h.le]

theorem maxQ_eq_max (x y : ℚ) : maxQ x y = max x y := by
  unfold maxQ
  rcases le_or_lt x y with h | h
  · rw [if_pos h, max_eq_right h]
  · rw [if_neg (not_le.mpr h), max_eq_left h.le]

/-- C3: for every `(score, atrPct)` with a non-null `atrPct`,
`determineLeverage` returns the boosted tier iff `score ≥ 9` and
`atrPct < 2` (at the default settings that tier is 4x); it returns the
floor tier 2x whenever `atrPct > 3`, regardless of score; and in every
other case it returns the configured default leverage. -/
theorem C3_determineLeverage_table (cfg : Config) (score : ℤ) (a : ℚ) :
    ((determineLeverage cfg score (some a)).mode = LeverageMode.boosted ↔
      (9 ≤ score ∧ a < 2)) ∧
    (3 < a →
      determineLeverage cfg score (some a) = ⟨2, LeverageMode.highVol⟩) ∧
    (¬(9 ≤ score ∧ a < 2) → ¬(3 < a) →
      determineLeverage cfg score (some a) =
        ⟨cfg.defaultLeverage, LeverageMode.normal⟩) ∧
    (9 ≤ score → a < 2 →
      determineLeverage defaultConfig score (some a) =
        ⟨4, LeverageMode.boosted⟩) := by
  simp only [determineLeverage, atrBelow, atrAbove, decide_eq_true_eq]
  refine ⟨?_, ?_, ?_, ?_⟩
  · split_ifs with h1 h2 <;> simp_all
  · intro h3
    have h2 : ¬ (a < 2) := by linarith
    split_ifs with hb <;> simp_all
  · intro h1 h2
    split_ifs
    simp_all
  · intro hs ha
    rw [if_pos ⟨hs, ha⟩]
    norm_num [defaultConfig, minQ]

/-- C3 witness: concrete rows of the decision table. -/
theorem C3_determineLeverage_table_witness :
    (determineLeverage defaultConfig 9 (some 1)).mode = LeverageMode.boosted ∧
    determineLeverage defaultConfig 10 (some 4) = ⟨2, LeverageMode.highVol⟩ ∧
    determineLeverage defaultConfig 8 (some (5/2)) =
      ⟨2, LeverageMode.normal⟩ := by
  refine ⟨(C3_determineLeverage_table defaultConfig 9 1).1.mpr
            ⟨by norm_num, by norm_num⟩,
          (C3_determineLeverage_table defaultConfig 10 4).2.1 (by norm_num),
          (C3_determineLeverage_table defaultConfig 8 (5/2)).2.2.1
            (by norm_num) (by norm_num)⟩

/-- C10: with a null `atrPct`, `determineLeverage` returns the configured
default tier for every score, and the caller coercion `atrPct || null`
sends an ATR% of exactly 0 to null, so a zero-ATR snapshot also yields the
default tier even when the score is 9 or more. -/
theorem C10_null_atr_default (cfg : Config) (score : ℤ) :
    determineLeverage cfg score none =
      ⟨cfg.defaultLeverage, LeverageMode.normal⟩ ∧
    coerceFalsy (some 0) = none ∧
    determineLeverage cfg score (coerceFalsy (some 0)) =
      ⟨cfg.defaultLeverage, LeverageMode.normal⟩ := by
  refine ⟨?_, by simp [coerceFalsy], ?_⟩ <;>
    simp [determineLeverage, atrBelow, atrAbove, coerceFalsy]

/-- C4 counterexample: at the default settings (margin cap 50% of balance)
the worked example `balance=100, entry=50000, stop=49000, leverage=2`
returns margin 50 — the 75 margin is capped — and the returned notional and
amount are recomputed from the capped margin to 100 and 0.002, so the
claimed notional 150 and quantity 0.003 are not what the call returns. -/
theorem C4_capped_counterexample :
    calculatePositionSize defaultConfig 100 50000 49000 2 =
      some ⟨3, 1/50, 100, 50, 1/500, 2⟩ ∧
    ((1:ℚ)/500 ≠ 3/1000 ∧ (100:ℚ) ≠ 150 ∧ (50:ℚ) ≠ 75) := by
  constructor
  · norm_num [calculatePositionSize, defaultConfig, absQ, minQ]
  · norm_num

/-- C4 amended: the example's uncapped figures riskUSD=3, notional=150,
margin=75, quantity=0.003 are returned exactly when the margin cap does not
bind (here `maxMarginPct = 100%`, so `balance × maxMarginPct = 100 ≥ 75`);
under the default 50% cap the margin is capped to 50 and the notional and
quantity are recomputed downward to 100 and 0.002. -/
theorem C4_worked_example :
    calculatePositionSize uncappedConfig 100 50000 49000 2 =
      some ⟨3, 1/50, 150, 75, 3/1000, 2⟩ ∧
    calculatePositionSize defaultConfig 100 50000 49000 2 =
      some ⟨3, 1/50, 100, 50, 1/500, 2⟩ := by
  constructor <;>
    norm_num [calculatePositionSize, defaultConfig, uncappedConfig, absQ, minQ]

/-- C1: the admission gate does not enforce the margin and R:R conditions
on every call. The exact gate call `openPosition` makes —
`canTrade()` with the empty context — admits (returns `true`) in a state
where the trade being opened has margin 60 exceeding the cap
`100 × 50% = 50` and R:R 1 below the floor 2.5, while `canTrade` with that
same data passed as context denies it. -/
theorem C1_gate_empty_context :
    (openPositionGate defaultConfig 0
      ⟨0, 0, [], 0, 100, 0, false, none⟩).1 = true ∧
    (canTrade defaultConfig 0 ⟨some 100, some 60, some 1⟩
      ⟨0, 0, [], 0, 100, 0, false, none⟩).1 = false ∧
    (60:ℚ) > 100 * (defaultConfig.maxMarginUsagePct / 100) ∧
    (1:ℚ) < defaultConfig.minRRRatio := by
  refine ⟨?_, ?_, by norm_num [defaultConfig], by norm_num [defaultConfig]⟩ <;>
    norm_num [openPositionGate, canTrade, checkDayReset, balanceOf,
      marginDenied, rrDenied, emptyTradeConfig, coerceFalsy, dayOf,
      defaultConfig]

/-- C5 counterexample: with ATR 0 and no Bollinger data, the pre-check pair
for a long at entry 50000 is a zero-distance stop (50000) and take-profit
53500; the R:R step then moves the take-profit to the entry price itself,
so the returned pair is (50000, 50000): its reward:risk is not ≥ 2.5, and
the take-profit was narrowed by the R:R step, not widened. -/
theorem C5_zero_stop_counterexample :
    calculateSLTP defaultConfig Direction.long 50000 0 none = ⟨50000, 50000⟩ ∧
    sltpPreRR Direction.long 50000 0 none = ⟨50000, 53500⟩ ∧
    ¬(defaultConfig.minRRRatio ≤
        |(50000:ℚ) - (calculateSLTP defaultConfig Direction.long 50000 0 none).takeProfit| /
          |(50000:ℚ) - (calculateSLTP defaultConfig Direction.long 50000 0 none).stopLoss|) ∧
    |(50000:ℚ) - (calculateSLTP defaultConfig Direction.long 50000 0 none).takeProfit| <
      |(50000:ℚ) - (sltpPreRR Direction.long 50000 0 none).takeProfit| := by
  have hpre : sltpPreRR Direction.long 50000 0 none = ⟨50000, 53500⟩ := by
    norm_num [sltpPreRR, minQ, maxQ]
  have hres : calculateSLTP defaultConfig Direction.long 50000 0 none =
      ⟨50000, 50000⟩ := by
    norm_num [calculateSLTP, hpre, absQ, defaultConfig]
  refine ⟨hres, hpre, ?_, ?_⟩
  · rw [hres]
    norm_num [defaultConfig]
  · rw [hres, hpre]
    norm_num

/-- C5 amended: whenever the stop computed before the R:R check has nonzero
distance from entry, the returned pair has reward:risk at least the
configured floor, the returned stop-loss is exactly the pre-check stop-loss
(never pulled in), and the take-profit distance is only ever widened by the
R:R step. (When the pre-check stop distance is zero — e.g. ATR 0 with no
binding Bollinger band — the code instead collapses the take-profit to the
entry price and the floor is not met.) -/
theorem C5_rr_floor (cfg : Config) (dir : Direction) (entryPrice atr : ℚ)
    (bb : Option Bollinger)
    (h : (sltpPreRR dir entryPrice atr bb).stopLoss ≠ entryPrice) :
    (calculateSLTP cfg dir entryPrice atr bb).stopLoss =
      (sltpPreRR dir entryPrice atr bb).stopLoss ∧
    cfg.minRRRatio * |entryPrice - (sltpPreRR dir entryPrice atr bb).stopLoss| ≤
      |entryPrice - (calculateSLTP cfg dir entryPrice atr bb).takeProfit| ∧
    |entryPrice - (sltpPreRR dir entryPrice atr bb).takeProfit| ≤
      |entryPrice - (calculateSLTP cfg dir entryPrice atr bb).takeProfit| := by
  rcases hp : sltpPreRR dir entryPrice atr bb with ⟨sl, tp⟩
  rw [hp] at h
  have hne : sl ≠ entryPrice := h
  have hpos : 0 < |entryPrice - sl| :=
    abs_pos.mpr (sub_ne_zero.mpr (Ne.symm hne))
  simp only [calculateSLTP, hp, absQ_eq_abs]
  rw [if_pos hpos]
  split_ifs with hrr
  · have htp : |entryPrice - tp| < cfg.minRRRatio * |entryPrice - sl| := by
      have := (div_lt_iff₀ hpos).mp hrr
      linarith
    have habs : cfg.minRRRatio * |entryPrice - sl| ≤
        abs (|entryPrice - sl| * cfg.minRRRatio) := by
      rw [mul_comm]
      exact le_abs_self _
    cases dir with
    | long =>
      refine ⟨rfl, ?_, ?_⟩
      · have he : entryPrice - (entryPrice + |entryPrice - sl| * cfg.minRRRatio) =
            -(|entryPrice - sl| * cfg.minRRRatio) := by ring
        rw [he, abs_neg]
        exact habs
      · have he : entryPrice - (entryPrice + |entryPrice - sl| * cfg.minRRRatio) =
            -(|entryPrice - sl| * cfg.minRRRatio) := by ring
        rw [he, abs_neg]
        exact le_trans htp.le habs
    | short =>
      refine ⟨rfl, ?_, ?_⟩
      · have he : entryPrice - (entryPrice - |entryPrice - sl| * cfg.minRRRatio) =
            |entryPrice - sl| * cfg.minRRRatio := by ring
        rw [he]
        exact habs
      · have he : entryPrice - (entryPrice - |entryPrice - sl| * cfg.minRRRatio) =
            |entryPrice - sl| * cfg.minRRRatio := by ring
        rw [he]
        exact le_trans htp.le habs
  · have hge : cfg.minRRRatio * |entryPrice - sl| ≤ |entryPrice - tp| := by
      have hd := not_lt.mp hrr
      calc cfg.minRRRatio * |entryPrice - sl|
          ≤ (|entryPrice - tp| / |entryPrice - sl|) * |entryPrice - sl| :=
            mul_le_mul_of_nonneg_right hd hpos.le
        _ = |entryPrice - tp| := div_mul_cancel₀ _ (ne_of_gt hpos)
    exact ⟨rfl, hge, le_refl _⟩

/-- C5 witness: a long at entry 50000 with ATR 500 and no Bollinger data —
the pre-check stop 49250 differs from entry, so the returned pair meets the
floor with the stop unchanged and the target only widened. -/
theorem C5_rr_floor_witness :
    (sltpPreRR Direction.long 50000 500 none).stopLoss ≠ 50000 ∧
    ((calculateSLTP defaultConfig Direction.long 50000 500 none).stopLoss =
        (sltpPreRR Direction.long 50000 500 none).stopLoss ∧
      defaultConfig.minRRRatio *
          |(50000:ℚ) - (sltpPreRR Direction.long 50000 500 none).stopLoss| ≤
        |(50000:ℚ) -
          (calculateSLTP defaultConfig Direction.long 50000 500 none).takeProfit| ∧
      |(50000:ℚ) - (sltpPreRR Direction.long 50000 500 none).takeProfit| ≤
        |(50000:ℚ) -
          (calculateSLTP defaultConfig Direction.long 50000 500 none).takeProfit|) :=
  ⟨by norm_num [sltpPreRR, minQ, maxQ],
   C5_rr_floor defaultConfig Direction.long 50000 500 none
     (by norm_num [sltpPreRR, minQ, maxQ])⟩

/-! ### Monitor-tick helper lemmas -/

@[simp] theorem updatePnl_direction (p : Position) (price : ℚ) :
    (updatePnl p price).direction = p.direction := by
  unfold updatePnl
  cases p.direction <;> rfl

@[simp] theorem updatePnl_entryPrice (p : Position) (price : ℚ) :
    (updatePnl p price).entryPrice = p.entryPrice := by
  unfold updatePnl
  cases p.direction <;> rfl

@[simp] theorem updatePnl_amount (p : Position) (price : ℚ) :
    (updatePnl p price).amount = p.amount := by
  unfold updatePnl
  cases p.direction <;> rfl

@[simp] theorem updatePnl_stopLoss (p : Position) (price : ℚ) :
    (updatePnl p price).stopLoss = p.stopLoss := by
  unfold updatePnl
  cases p.direction <;> rfl

@[simp] theorem updatePnl_takeProfit (p : Position) (price : ℚ) :
    (updatePnl p price).takeProfit = p.takeProfit := by
  unfold updatePnl
  cases p.direction <;> rfl

@[simp] theorem updatePnl_trailingStopActive (p : Position) (price : ℚ) :
    (updatePnl p price).trailingStopActive = p.trailingStopActive := by
  unfold updatePnl
  cases p.direction <;> rfl

@[simp] theorem updatePnl_trailingStopPrice (p : Position) (price : ℚ) :
    (updatePnl p price).trailingStopPrice = p.trailingStopPrice := by
  unfold updatePnl
  cases p.direction <;> rfl

@[simp] theorem updatePnl_partialClosed (p : Position) (price : ℚ) :
    (updatePnl p price).partialClosed = p.partialClosed := by
  unfold updatePnl
  cases p.direction <;> rfl

@[simp] theorem maybeActivateTrailing_direction (cfg : Config) (p : Position)
    (price : ℚ) : (maybeActivateTrailing cfg p price).direction = p.direction := by
  unfold maybeActivateTrailing
  split_ifs <;> rfl

@[simp] theorem maybeActivateTrailing_entryPrice (cfg : Config) (p : Position)
    (price : ℚ) : (maybeActivateTrailing cfg p price).entryPrice = p.entryPrice := by
  unfold maybeActivateTrailing
  split_ifs <;> rfl

@[simp] theorem maybeActivateTrailing_amount (cfg : Config) (p : Position)
    (price : ℚ) : (maybeActivateTrailing cfg p price).amount = p.amount := by
  unfold maybeActivateTrailing
  split_ifs <;> rfl

@[simp] theorem maybeActivateTrailing_stopLoss (cfg : Config) (p : Position)
    (price : ℚ) : (maybeActivateTrailing cfg p price).stopLoss = p.stopLoss := by
  unfold maybeActivateTrailing
  split_ifs <;> rfl

@[simp] theorem maybeActivateTrailing_takeProfit (cfg : Config) (p : Position)
    (price : ℚ) : (maybeActivateTrailing cfg p price).takeProfit = p.takeProfit := by
  unfold maybeActivateTrailing
  split_ifs <;> rfl

@[simp] theorem maybeActivateTrailing_partialClosed (cfg : Config) (p : Position)
    (price : ℚ) :
    (maybeActivateTrailing cfg p price).partialClosed = p.partialClosed := by
  unfold maybeActivateTrailing
  split_ifs <;> rfl

@[simp] theorem maybeActivateTrailing_pnlPct (cfg : Config) (p : Position)
    (price : ℚ) : (maybeActivateTrailing cfg p price).pnlPct = p.pnlPct := by
  unfold maybeActivateTrailing
  split_ifs <;> rfl

theorem maybeActivateTrailing_of_active (cfg : Config) (p : Position) (price : ℚ)
    (h : p.trailingStopActive = true) :
    maybeActivateTrailing cfg p price = p := by
  unfold maybeActivateTrailing
  rw [h]
  simp

@[simp] theorem ratchetTrailing_direction (cfg : Config) (p : Position) (price : ℚ) :
    (ratchetTrailing cfg p price).direction = p.direction := by
  unfold ratchetTrailing
  cases hd : p.direction <;> cases ht : p.trailingStopPrice <;> dsimp only <;>
    (try split_ifs) <;> simp_all

@[simp] theorem ratchetTrailing_entryPrice (cfg : Config) (p : Position) (price : ℚ) :
    (ratchetTrailing cfg p price).entryPrice = p.entryPrice := by
  unfold ratchetTrailing
  cases hd : p.direction <;> cases ht : p.trailingStopPrice <;> dsimp only <;>
    (try split_ifs) <;> simp_all

@[simp] theorem ratchetTrailing_amount (cfg : Config) (p : Position) (price : ℚ) :
    (ratchetTrailing cfg p price).amount = p.amount := by
  unfold ratchetTrailing
  cases hd : p.direction <;> cases ht : p.trailingStopPrice <;> dsimp only <;>
    (try split_ifs) <;> simp_all

@[simp] theorem ratchetTrailing_stopLoss (cfg : Config) (p : Position) (price : ℚ) :
    (ratchetTrailing cfg p price).stopLoss = p.stopLoss := by
  unfold ratchetTrailing
  cases hd : p.direction <;> cases ht : p.trailingStopPrice <;> dsimp only <;>
    (try split_ifs) <;> simp_all

@[simp] theorem ratchetTrailing_takeProfit (cfg : Config) (p : Position) (price : ℚ) :
    (ratchetTrailing cfg p price).takeProfit = p.takeProfit := by
  unfold ratchetTrailing
  cases hd : p.direction <;> cases ht : p.trailingStopPrice <;> dsimp only <;>
    (try split_ifs) <;> simp_all

@[simp] theorem ratchetTrailing_trailingStopActive (cfg : Config) (p : Position)
    (price : ℚ) :
    (ratchetTrailing cfg p price).trailingStopActive = p.trailingStopActive := by
  unfold ratchetTrailing
  cases hd : p.direction <;> cases ht : p.trailingStopPrice <;> dsimp only <;>
    (try split_ifs) <;> simp_all

@[simp] theorem ratchetTrailing_partialClosed (cfg : Config) (p : Position)
    (price : ℚ) :
    (ratchetTrailing cfg p price).partialClosed = p.partialClosed := by
  unfold ratchetTrailing
  cases hd : p.direction <;> cases ht : p.trailingStopPrice <;> dsimp only <;>
    (try split_ifs) <;> simp_all

@[simp] theorem ratchetTrailing_pnlPct (cfg : Config) (p : Position) (price : ℚ) :
    (ratchetTrailing cfg p price).pnlPct = p.pnlPct := by
  unfold ratchetTrailing
  cases hd : p.direction <;> cases ht : p.trailingStopPrice <;> dsimp only <;>
    (try split_ifs) <;> simp_all

theorem ratchetTrailing_mono (cfg : Config) (p : Position) (price : ℚ) :
    (ratchetTrailing cfg p price).trailingStopPrice.isSome =
      p.trailingStopPrice.isSome ∧
    (p.direction = Direction.long →
      tslD p ≤ tslD (ratchetTrailing cfg p price)) ∧
    (p.direction = Direction.short →
      tslD (ratchetTrailing cfg p price) ≤ tslD p) := by
  unfold ratchetTrailing
  cases hd : p.direction <;> cases ht : p.trailingStopPrice <;> dsimp only <;>
    (try split_ifs with hlt) <;>
    simp_all [tslD] <;> linarith

@[simp] theorem maybePartialClose_direction (cfg : Config) (ok : Bool)
    (p : Position) : (maybePartialClose cfg ok p).direction = p.direction := by
  unfold maybePartialClose
  split_ifs <;> rfl

@[simp] theorem maybePartialClose_entryPrice (cfg : Config) (ok : Bool)
    (p : Position) : (maybePartialClose cfg ok p).entryPrice = p.entryPrice := by
  unfold maybePartialClose
  split_ifs <;> rfl

@[simp] theorem maybePartialClose_takeProfit (cfg : Config) (ok : Bool)
    (p : Position) : (maybePartialClose cfg ok p).takeProfit = p.takeProfit := by
  unfold maybePartialClose
  split_ifs <;> rfl

@[simp] theorem maybePartialClose_trailingStopActive (cfg : Config) (ok : Bool)
    (p : Position) :
    (maybePartialClose cfg ok p).trailingStopActive = p.trailingStopActive := by
  unfold maybePartialClose
  split_ifs <;> rfl

@[simp] theorem maybePartialClose_trailingStopPrice (cfg : Config) (ok : Bool)
    (p : Position) :
    (maybePartialClose cfg ok p).trailingStopPrice = p.trailingStopPrice := by
  unfold maybePartialClose
  split_ifs <;> rfl

theorem maybePartialClose_of_closed (cfg : Config) (ok : Bool) (p : Position)
    (h : p.partialClosed = true) : maybePartialClose cfg ok p = p := by
  unfold maybePartialClose
  rw [h]
  simp

theorem maybePartialClose_stopLoss_cases (cfg : Config) (ok : Bool) (p : Position) :
    (maybePartialClose cfg ok p).stopLoss = p.stopLoss ∨
    ((maybePartialClose cfg ok p).stopLoss = p.entryPrice ∧
      (maybePartialClose cfg ok p).partialClosed = true) := by
  unfold maybePartialClose
  split_ifs <;> simp

theorem maybePartialClose_amount_ne (cfg : Config) (ok : Bool) (p : Position)
    (h : (maybePartialClose cfg ok p).amount ≠ p.amount) :
    (maybePartialClose cfg ok p).partialClosed = true ∧
    (maybePartialClose cfg ok p).stopLoss = p.entryPrice := by
  unfold maybePartialClose at h ⊢
  split_ifs at h ⊢ <;> simp_all

/-- The four ways one monitor tick can go, with the end-of-tick record of
each path written as a composition of the helper functions. -/
theorem monitorStep_cases (cfg : Config) (ok : Bool) (p : Position) (price : ℚ) :
    monitorStep cfg ok p price =
      TickResult.closing CloseReason.stopLossHit (updatePnl p price) ∨
    monitorStep cfg ok p price =
      TickResult.closing CloseReason.takeProfitHit (updatePnl p price) ∨
    monitorStep cfg ok p price =
      TickResult.closing CloseReason.trailingStopHit
        (ratchetTrailing cfg (maybeActivateTrailing cfg (updatePnl p price) price) price) ∨
    (∃ p2, (p2 = ratchetTrailing cfg
          (maybeActivateTrailing cfg (updatePnl p price) price) price ∨
        p2 = maybeActivateTrailing cfg (updatePnl p price) price) ∧
      monitorStep cfg ok p price =
        TickResult.stillOpen (maybePartialClose cfg ok p2)) := by
  unfold monitorStep
  dsimp only
  split_ifs <;> simp

/-- A tick on an already-partially-closed position never changes `amount`
or `stopLoss` again and never clears the one-shot flag. -/
theorem stepPos_partial_locked (cfg : Config) (ok : Bool) (price : ℚ)
    (p : Position) (h : p.partialClosed = true) :
    (stepPos cfg ok price p).amount = p.amount ∧
    (stepPos cfg ok price p).stopLoss = p.stopLoss ∧
    (stepPos cfg ok price p).partialClosed = true := by
  unfold stepPos
  rcases monitorStep_cases cfg ok p price with hc | hc | hc | ⟨p2, hp2, hc⟩ <;>
    rw [hc] <;> dsimp only [TickResult.pos] <;> try simp [h]
  rcases hp2 with h2 | h2 <;> subst h2 <;>
    rw [maybePartialClose_of_closed _ _ _ (by simp [h])] <;> simp [h]

/-- A still-open tick that changed the quantity must have fired the partial
close: the flag is now set and the stop sits at breakeven. -/
theorem stillOpen_amount_change (cfg : Config) (ok : Bool) (p : Position)
    (price : ℚ) (q : Position)
    (h : monitorStep cfg ok p price = TickResult.stillOpen q)
    (hne : q.amount ≠ p.amount) :
    q.partialClosed = true ∧ q.stopLoss = p.entryPrice := by
  rcases monitorStep_cases cfg ok p price with hc | hc | hc | ⟨p2, hp2, hc⟩
  · rw [hc] at h
    exact absurd h (by simp)
  · rw [hc] at h
    exact absurd h (by simp)
  · rw [hc] at h
    exact absurd h (by simp)
  rw [hc] at h
  injection h with h1
  have hq : q = maybePartialClose cfg ok p2 := h1.symm
  subst hq
  have hamount : (maybePartialClose cfg ok p2).amount ≠ p2.amount := by
    rcases hp2 with h2 | h2 <;> subst h2 <;> simpa using hne
  have hfire := maybePartialClose_amount_ne cfg ok p2 hamount
  refine ⟨hfire.1, ?_⟩
  rw [hfire.2]
  rcases hp2 with h2 | h2 <;> subst h2 <;> simp

/-- One tick preserves direction and entry and moves the stop only toward
breakeven, staying on the protective side of entry. -/
theorem stepPos_stopLoss_step (cfg : Config) (ok : Bool) (price : ℚ)
    (p : Position)
    (hl : p.direction = Direction.long → p.stopLoss ≤ p.entryPrice)
    (hs : p.direction = Direction.short → p.entryPrice ≤ p.stopLoss) :
    (stepPos cfg ok price p).direction = p.direction ∧
    (stepPos cfg ok price p).entryPrice = p.entryPrice ∧
    (p.direction = Direction.long →
      p.stopLoss ≤ (stepPos cfg ok price p).stopLoss ∧
      (stepPos cfg ok price p).stopLoss ≤ p.entryPrice) ∧
    (p.direction = Direction.short →
      (stepPos cfg ok price p).stopLoss ≤ p.stopLoss ∧
      p.entryPrice ≤ (stepPos cfg ok price p).stopLoss) := by
  unfold stepPos
  rcases monitorStep_cases cfg ok p price with hc | hc | hc | ⟨p2, hp2, hc⟩ <;>
    rw [hc] <;> dsimp only [TickResult.pos]
  · exact ⟨by simp, by simp, fun hd => ⟨by simp, by simp [hl hd]⟩,
      fun hd => ⟨by simp, by simp [hs hd]⟩⟩
  · exact ⟨by simp, by simp, fun hd => ⟨by simp, by simp [hl hd]⟩,
      fun hd => ⟨by simp, by simp [hs hd]⟩⟩
  · exact ⟨by simp, by simp, fun hd => ⟨by simp, by simp [hl hd]⟩,
      fun hd => ⟨by simp, by simp [hs hd]⟩⟩
  · have hsl2 : p2.stopLoss = p.stopLoss := by
      rcases hp2 with h2 | h2 <;> subst h2 <;> simp
    have hep2 : p2.entryPrice = p.entryPrice := by
      rcases hp2 with h2 | h2 <;> subst h2 <;> simp
    have hdir2 : p2.direction = p.direction := by
      rcases hp2 with h2 | h2 <;> subst h2 <;> simp
    refine ⟨by simp [hdir2], by simp [hep2], fun hd => ?_, fun hd => ?_⟩
    · rcases maybePartialClose_stopLoss_cases cfg ok p2 with hcase | ⟨hcase, _⟩
      · rw [hcase, hsl2]
        exact ⟨le_refl _, hl hd⟩
      · rw [hcase, hep2]
        exact ⟨hl hd, le_refl _⟩
    · rcases maybePartialClose_stopLoss_cases cfg ok p2 with hcase | ⟨hcase, _⟩
      · rw [hcase, hsl2]
        exact ⟨le_refl _, hs hd⟩
      · rw [hcase, hep2]
        exact ⟨hs hd, le_refl _⟩

/-- One tick on a trailing-active position keeps trailing active and moves
the trailing stop only in the favorable direction. -/
theorem stepPos_trailing_step (cfg : Config) (ok : Bool) (price : ℚ)
    (p : Position) (hact : p.trailingStopActive = true)
    (hsome : p.trailingStopPrice.isSome = true) :
    (stepPos cfg ok price p).direction = p.direction ∧
    (stepPos cfg ok price p).trailingStopActive = true ∧
    (stepPos cfg ok price p).trailingStopPrice.isSome = true ∧
    (p.direction = Direction.long →
      tslD p ≤ tslD (stepPos cfg ok price p)) ∧
    (p.direction = Direction.short →
      tslD (stepPos cfg ok price p) ≤ tslD p) := by
  have hmat : maybeActivateTrailing cfg (updatePnl p price) price =
      updatePnl p price :=
    maybeActivateTrailing_of_active _ _ _ (by simp [hact])
  have hmono := ratchetTrailing_mono cfg (updatePnl p price) price
  unfold stepPos
  rcases monitorStep_cases cfg ok p price with hc | hc | hc | ⟨p2, hp2, hc⟩ <;>
    rw [hc] <;> dsimp only [TickResult.pos]
  · exact ⟨by simp, by simp [hact], by simp [hsome],
      fun _ => by simp [tslD], fun _ => by simp [tslD]⟩
  · exact ⟨by simp, by simp [hact], by simp [hsome],
      fun _ => by simp [tslD], fun _ => by simp [tslD]⟩
  · rw [hmat]
    refine ⟨by simp, by simp [hact], ?_, fun hd => ?_, fun hd => ?_⟩
    · rw [hmono.1]
      simp [hsome]
    · have h1 := hmono.2.1 (by simp [hd])
      have h2 : tslD (updatePnl p price) = tslD p := by simp [tslD]
      rw [h2] at h1
      exact h1
    · have h1 := hmono.2.2 (by simp [hd])
      have h2 : tslD (updatePnl p price) = tslD p := by simp [tslD]
      rw [h2] at h1
      exact h1
  · rcases hp2 with h2 | h2 <;> subst h2 <;> rw [hmat]
    · refine ⟨by simp, by simp [hact], ?_, fun hd => ?_, fun hd => ?_⟩
      · rw [show (maybePartialClose cfg ok
            (ratchetTrailing cfg (updatePnl p price) price)).trailingStopPrice =
            (ratchetTrailing cfg (updatePnl p price) price).trailingStopPrice from
            by simp, hmono.1]
        simp [hsome]
      · have h1 := hmono.2.1 (by simp [hd])
        have h2 : tslD (updatePnl p price) = tslD p := by simp [tslD]
        have h3 : tslD (maybePartialClose cfg ok
            (ratchetTrailing cfg (updatePnl p price) price)) =
            tslD (ratchetTrailing cfg (updatePnl p price) price) := by simp [tslD]
        rw [h3]
        rw [h2] at h1
        exact h1
      · have h1 := hmono.2.2 (by simp [hd])
        have h2 : tslD (updatePnl p price) = tslD p := by simp [tslD]
        have h3 : tslD (maybePartialClose cfg ok
            (ratchetTrailing cfg (updatePnl p price) price)) =
            tslD (ratchetTrailing cfg (updatePnl p price) price) := by simp [tslD]
        rw [h3]
        rw [h2] at h1
        exact h1
    · refine ⟨by simp, by simp [hact], by simp [tslD, hsome],
        fun _ => by simp [tslD], fun _ => by simp [tslD]⟩

/-- C6 counterexample: the Bollinger clamp in `calculateSLTP` can place the
initial stop-loss of a long above its entry price (here stop 109.78 vs
entry 100 from `calculateSLTP(long, 100, 1, {upper 120, lower 110})`), and
one monitor tick at price 110 then fires the partial-close breakeven
ratchet, which moves the stop DOWN to 100 — the stopLoss of this open long
decreases between ticks, so it is not non-decreasing for every position. -/
theorem C6_breakeven_loosens_counterexample :
    calculateSLTP defaultConfig Direction.long 100 1 (some ⟨120, 110⟩) =
      ⟨bollingerClampedPos.stopLoss, bollingerClampedPos.takeProfit⟩ ∧
    bollingerClampedPos.direction = Direction.long ∧
    (stepPos defaultConfig true 110 bollingerClampedPos).stopLoss <
      bollingerClampedPos.stopLoss := by
  refine ⟨?_, rfl, ?_⟩
  · have hpre : sltpPreRR Direction.long 100 1 (some ⟨120, 110⟩) =
        ⟨5489/50, 107⟩ := by
      norm_num [sltpPreRR, minQ, maxQ]
    norm_num [calculateSLTP, hpre, absQ, defaultConfig, bollingerClampedPos]
  · norm_num [stepPos, monitorStep, updatePnl, maybeActivateTrailing,
      ratchetTrailing, trailingBreached, maybePartialClose, hitSL, hitTP,
      TickResult.pos, bollingerClampedPos, defaultConfig]

/-- C6 amended: for every open position whose stop-loss starts on the
protective side of its entry (at or below entry for a long, at or above for
a short — true of any normally-placed stop, though violable by the
Bollinger clamp), the stopLoss never loosens across monitor ticks: it is
non-decreasing for a long and non-increasing for a short, the only in-life
mutation being the partial-close ratchet to the breakeven entry price. -/
theorem C6_stoploss_never_loosens (cfg : Config) (l : List (Bool × ℚ))
    (p : Position)
    (hl : p.direction = Direction.long → p.stopLoss ≤ p.entryPrice)
    (hs : p.direction = Direction.short → p.entryPrice ≤ p.stopLoss) :
    (p.direction = Direction.long →
      p.stopLoss ≤ (runTicks cfg p l).stopLoss) ∧
    (p.direction = Direction.short →
      (runTicks cfg p l).stopLoss ≤ p.stopLoss) := by
  induction l generalizing p with
  | nil => exact ⟨fun _ => le_refl _, fun _ => le_refl _⟩
  | cons bp rest ih =>
    obtain ⟨hdir, hent, hlo, hsh⟩ := stepPos_stopLoss_step cfg bp.1 bp.2 p hl hs
    have hl1 : (stepPos cfg bp.1 bp.2 p).direction = Direction.long →
        (stepPos cfg bp.1 bp.2 p).stopLoss ≤
          (stepPos cfg bp.1 bp.2 p).entryPrice := by
      intro h1
      rw [hdir] at h1
      rw [hent]
      exact (hlo h1).2
    have hs1 : (stepPos cfg bp.1 bp.2 p).direction = Direction.short →
        (stepPos cfg bp.1 bp.2 p).entryPrice ≤
          (stepPos cfg bp.1 bp.2 p).stopLoss := by
      intro h1
      rw [hdir] at h1
      rw [hent]
      exact (hsh h1).2
    have hrest := ih (stepPos cfg bp.1 bp.2 p) hl1 hs1
    refine ⟨fun hd => ?_, fun hd => ?_⟩
    · have h1 := (hlo hd).1
      have h2 := hrest.1 (by rw [hdir]; exact hd)
      exact le_trans h1 h2
    · have h1 := (hsh hd).1
      have h2 := hrest.2 (by rw [hdir]; exact hd)
      exact le_trans h2 h1

/-- C6 witness: a long with protective stop 98 under entry 100 keeps its
stop at or above 98 across a tick that fires the breakeven ratchet. -/
theorem C6_stoploss_never_loosens_witness :
    (98:ℚ) ≤ (runTicks defaultConfig examplePos [(true, 104)]).stopLoss :=
  (C6_stoploss_never_loosens defaultConfig [(true, 104)] examplePos
    (fun _ => by norm_num [examplePos])
    (fun h => by simp [examplePos] at h)).1 rfl

/-- C7: the partial close is one-shot. If a tick leaves the position open
with its quantity changed, that tick set `partialClosed` and ratcheted the
stop to the breakeven entry; every later tick (any price, any order
outcome) leaves quantity and stop unchanged; and no tick ever clears a set
`partialClosed` flag. -/
theorem C7_partial_close_one_shot (cfg : Config) (ok2 : Bool)
    (p q : Position) (price1 price2 : ℚ)
    (h : monitorStep cfg true p price1 = TickResult.stillOpen q)
    (hred : q.amount ≠ p.amount) :
    q.partialClosed = true ∧
    q.stopLoss = p.entryPrice ∧
    (stepPos cfg ok2 price2 q).amount = q.amount ∧
    (stepPos cfg ok2 price2 q).stopLoss = q.stopLoss ∧
    (stepPos cfg ok2 price2 q).partialClosed = true ∧
    (∀ r : Position, r.partialClosed = true → ∀ ok3 : Bool, ∀ price3 : ℚ,
      (stepPos cfg ok3 price3 r).partialClosed = true) := by
  have h1 := stillOpen_amount_change cfg true p price1 q h hred
  have h2 := stepPos_partial_locked cfg ok2 price2 q h1.1
  exact ⟨h1.1, h1.2, h2.1, h2.2.1, h2.2.2,
    fun r hr ok3 price3 => (stepPos_partial_locked cfg ok3 price3 r hr).2.2⟩

/-- C7 witness: the tick of `examplePos` at price 104 halves the quantity
and sets the flag; the next tick at the same price changes nothing. -/
theorem C7_partial_close_one_shot_witness :
    partialClosedPos.partialClosed = true ∧
    partialClosedPos.stopLoss = examplePos.entryPrice ∧
    (stepPos defaultConfig true 104 partialClosedPos).amount =
      partialClosedPos.amount ∧
    (stepPos defaultConfig true 104 partialClosedPos).stopLoss =
      partialClosedPos.stopLoss ∧
    (stepPos defaultConfig true 104 partialClosedPos).partialClosed = true := by
  have h := C7_partial_close_one_shot defaultConfig true examplePos
    partialClosedPos 104 104
    (by norm_num [monitorStep, updatePnl, maybeActivateTrailing,
      ratchetTrailing, trailingBreached, maybePartialClose, hitSL, hitTP,
      examplePos, partialClosedPos, defaultConfig])
    (by norm_num [examplePos, partialClosedPos])
  exact ⟨h.1, h.2.1, h.2.2.1, h.2.2.2.1, h.2.2.2.2.1⟩

/-- C8: while trailing is active, the trailing stop is monotone across
monitor ticks — non-decreasing for a long, non-increasing for a short —
and trailing never deactivates nor loses its stop value. -/
theorem C8_trailing_monotone (cfg : Config) (l : List (Bool × ℚ))
    (p : Position) (hact : p.trailingStopActive = true)
    (hsome : p.trailingStopPrice.isSome = true) :
    (runTicks cfg p l).trailingStopActive = true ∧
    (runTicks cfg p l).trailingStopPrice.isSome = true ∧
    (p.direction = Direction.long → tslD p ≤ tslD (runTicks cfg p l)) ∧
    (p.direction = Direction.short → tslD (runTicks cfg p l) ≤ tslD p) := by
  induction l generalizing p with
  | nil => exact ⟨hact, hsome, fun _ => le_refl _, fun _ => le_refl _⟩
  | cons bp rest ih =>
    obtain ⟨hdir, hact1, hsome1, hlo, hsh⟩ :=
      stepPos_trailing_step cfg bp.1 bp.2 p hact hsome
    have hrest := ih (stepPos cfg bp.1 bp.2 p) hact1 hsome1
    refine ⟨hrest.1, hrest.2.1, fun hd => ?_, fun hd => ?_⟩
    · exact le_trans (hlo hd) (hrest.2.2.1 (by rw [hdir]; exact hd))
    · exact le_trans (hrest.2.2.2 (by rw [hdir]; exact hd)) (hsh hd)

/-- C8 witness: a trailing-active long at 100 ratchets to 102.44 at price
104 and never retreats. -/
theorem C8_trailing_monotone_witness :
    (runTicks defaultConfig trailingPos [(true, 104)]).trailingStopActive = true ∧
    (100:ℚ) ≤ tslD (runTicks defaultConfig trailingPos [(true, 104)]) := by
  have h := C8_trailing_monotone defaultConfig [(true, 104)] trailingPos rfl rfl
  exact ⟨h.1, h.2.2.1 rfl⟩

/-! ### Close-path lemmas -/

theorem lookupPos_store (sym : String) (p : Position)
    (l : List (String × Position)) (h : (lookupPos sym l).isSome = true) :
    lookupPos sym (storePos sym p l) = some p := by
  induction l with
  | nil => simp [lookupPos] at h
  | cons e r ih =>
    by_cases he : e.1 = sym
    · simp [lookupPos, storePos, he]
    · rw [lookupPos, if_neg he] at h
      rw [storePos, if_neg he, lookupPos, if_neg he]
      exact ih h

theorem lookupPos_erase (sym : String) (l : List (String × Position)) :
    lookupPos sym (erasePos sym l) = none := by
  induction l with
  | nil => rfl
  | cons e r ih =>
    by_cases he : e.1 = sym
    · rw [erasePos, if_pos he]
      exact ih
    · rw [erasePos, if_neg he, lookupPos, if_neg he]
      exact ih

/-- A tick that hands the position to `closePosition` has not touched its
quantity, direction, entry, stop or target. -/
theorem closing_fields (cfg : Config) (ok : Bool) (p : Position) (price : ℚ)
    (r : CloseReason) (p1 : Position)
    (h : monitorStep cfg ok p price = TickResult.closing r p1) :
    p1.amount = p.amount ∧ p1.direction = p.direction ∧
    p1.entryPrice = p.entryPrice ∧ p1.stopLoss = p.stopLoss ∧
    p1.takeProfit = p.takeProfit := by
  rcases monitorStep_cases cfg ok p price with hc | hc | hc | ⟨p2, hp2, hc⟩ <;>
    rw [hc] at h
  · injection h with _ h1
    subst h1
    simp
  · injection h with _ h1
    subst h1
    simp
  · injection h with _ h1
    subst h1
    simp
  · exact absurd h (by simp)

theorem hitSL_congr (p q : Position) (price : ℚ)
    (hd : q.direction = p.direction) (hs : q.stopLoss = p.stopLoss) :
    hitSL q price = hitSL p price := by
  unfold hitSL
  rw [hd, hs]

/-- A tick on a position whose stop-loss condition holds closes it. -/
theorem monitorStep_of_hitSL (cfg : Config) (ok : Bool) (p : Position)
    (price : ℚ) (h : hitSL p price = true) :
    monitorStep cfg ok p price =
      TickResult.closing CloseReason.stopLossHit (updatePnl p price) := by
  unfold monitorStep
  dsimp only
  have h1 : hitSL (updatePnl p price) price = true := by
    rw [hitSL_congr p (updatePnl p price) price (by simp) (by simp)]
    exact h
  rw [if_pos h1]

/-- C9: when the offsetting order of `closePosition` fails, the position
stays in the active set with quantity, direction, entry, stop and target
intact; a position leaves the active set only when the whole close — the
order placement included — succeeded; and a failed stop-loss close is
re-attempted and completes on a later tick at the same price. -/
theorem C9_close_retry_safety (cfg : Config) (pOk : Bool) (sym : String)
    (price : ℚ) (st : EngineState) (pos : Position) (r : CloseReason)
    (p1 : Position)
    (hpos : lookupPos sym st.positions = some pos)
    (hstep : monitorStep cfg pOk pos price = TickResult.closing r p1) :
    (∃ q, lookupPos sym
        (monitorClose cfg CloseOutcome.orderFailed pOk sym price st).positions =
          some q ∧
      q.amount = pos.amount ∧ q.direction = pos.direction ∧
      q.entryPrice = pos.entryPrice ∧ q.stopLoss = pos.stopLoss ∧
      q.takeProfit = pos.takeProfit) ∧
    (∀ oc, lookupPos sym
        (monitorClose cfg oc pOk sym price st).positions = none →
      oc = CloseOutcome.completed) ∧
    (hitSL pos price = true →
      lookupPos sym (monitorClose cfg CloseOutcome.completed pOk sym price
        (monitorClose cfg CloseOutcome.orderFailed pOk sym price st)).positions =
        none) := by
  have hsome : (lookupPos sym st.positions).isSome = true := by
    rw [hpos]
    rfl
  have hstore : lookupPos sym (storePos sym p1 st.positions) = some p1 :=
    lookupPos_store sym p1 st.positions hsome
  have hfields := closing_fields cfg pOk pos price r p1 hstep
  have hfail : monitorClose cfg CloseOutcome.orderFailed pOk sym price st =
      { st with positions := storePos sym p1 st.positions } := by
    unfold monitorClose
    rw [hpos]
    dsimp only
    rw [hstep]
    unfold closePosition
    dsimp only
    rw [hstore]
  refine ⟨?_, ?_, ?_⟩
  · refine ⟨p1, ?_, hfields.1, hfields.2.1, hfields.2.2.1,
      hfields.2.2.2.1, hfields.2.2.2.2⟩
    rw [hfail]
    exact hstore
  · intro oc hnone
    cases oc with
    | orderFailed =>
      rw [hfail] at hnone
      dsimp only at hnone
      rw [hstore] at hnone
      exact absurd hnone (by simp)
    | laterFailed =>
      have : monitorClose cfg CloseOutcome.laterFailed pOk sym price st =
          { st with positions := storePos sym p1 st.positions,
                    dailyPnL := st.dailyPnL + finalPnL p1 price } := by
        unfold monitorClose
        rw [hpos]
        dsimp only
        rw [hstep]
        unfold closePosition
        dsimp only
        rw [hstore]
      rw [this] at hnone
      dsimp only at hnone
      rw [hstore] at hnone
      exact absurd hnone (by simp)
    | completed => rfl
  · intro hsl
    have hsl1 : hitSL p1 price = true := by
      rw [hitSL_congr pos p1 price hfields.2.1 hfields.2.2.2.1]
      exact hsl
    have hstep1 := monitorStep_of_hitSL cfg pOk p1 price hsl1
    rw [hfail]
    unfold monitorClose
    dsimp only
    rw [hstore]
    dsimp only
    rw [hstep1]
    unfold closePosition
    dsimp only
    have hsome1 : (lookupPos sym (storePos sym p1 st.positions)).isSome = true := by
      rw [hstore]
      rfl
    rw [lookupPos_store sym (updatePnl p1 price) _ hsome1]
    dsimp only
    exact lookupPos_erase sym _

/-- C9 witness: a stop-loss hit on `examplePos` at price 97 with a failing
close order keeps the position; the retry on the next tick removes it. -/
theorem C9_close_retry_safety_witness :
    hitSL examplePos 97 = true ∧
    (∃ q, lookupPos "BTC/USDT"
        (monitorClose defaultConfig CloseOutcome.orderFailed true "BTC/USDT" 97
          engineWithOpenPos).positions = some q ∧
      q.amount = examplePos.amount ∧ q.direction = examplePos.direction ∧
      q.entryPrice = examplePos.entryPrice ∧ q.stopLoss = examplePos.stopLoss ∧
      q.takeProfit = examplePos.takeProfit) ∧
    lookupPos "BTC/USDT" (monitorClose defaultConfig CloseOutcome.completed true
      "BTC/USDT" 97 (monitorClose defaultConfig CloseOutcome.orderFailed true
        "BTC/USDT" 97 engineWithOpenPos)).positions = none := by
  have hsl : hitSL examplePos 97 = true := by
    norm_num [hitSL, examplePos]
  have h := C9_close_retry_safety defaultConfig true "BTC/USDT" 97
    engineWithOpenPos examplePos CloseReason.stopLossHit
    (updatePnl examplePos 97)
    (by simp [lookupPos, engineWithOpenPos])
    (monitorStep_of_hitSL defaultConfig true examplePos 97 hsl)
  exact ⟨hsl, h.1, h.2.2 hsl⟩

/-- C2: the daily-loss circuit breaker. (a) A gate call in an unlocked
state on the current local day whose `dailyPnL` has breached
`-(balance × maxDailyLossPct)` is denied and trips the breaker, locking
until the next local-day boundary; (b) `recordPnL` pushing `dailyPnL` past
the limit trips it too; (c) while locked, every gate call on the same local
day or before `lock_until` is denied, whatever the context; (d) on a new
local day at or past `lock_until`, the gate unlocks by itself and a
qualifying context is admitted again, with no manual intervention. -/
theorem C2_circuit_breaker (cfg : Config) :
    (∀ s t tc, s.locked = false → dayOf t = s.currentDay →
      s.dailyPnL < -(balanceOf cfg tc * (cfg.maxDailyLossPct / 100)) →
      (canTrade cfg t tc s).1 = false ∧
      (canTrade cfg t tc s).2.locked = true ∧
      (canTrade cfg t tc s).2.lockUntil =
        some ((dayOf t + 1) * minutesPerDay)) ∧
    (∀ s t pnl, s.dailyPnL + pnl <
        -(cfg.initialBalance * (cfg.maxDailyLossPct / 100)) →
      (recordPnL cfg t pnl s).locked = true ∧
      (recordPnL cfg t pnl s).lockUntil =
        some ((dayOf t + 1) * minutesPerDay)) ∧
    (∀ s t tc u, s.locked = true → s.lockUntil = some u →
      (dayOf t = s.currentDay ∨ t < u) →
      (canTrade cfg t tc s).1 = false) ∧
    (∀ s t tc u, s.locked = true → s.lockUntil = some u →
      dayOf t ≠ s.currentDay → u ≤ t →
      0 ≤ balanceOf cfg tc * (cfg.maxDailyLossPct / 100) →
      (∀ m b, coerceFalsy tc.margin = some m → coerceFalsy tc.balance = some b →
        m ≤ b * (cfg.maxMarginUsagePct / 100)) →
      (∀ rr, coerceFalsy tc.rrRatio = some rr → cfg.minRRRatio ≤ rr) →
      (canTrade cfg t tc s).1 = true) := by
  refine ⟨?_, ?_, ?_, ?_⟩
  · intro s t tc hlock hday hbr
    have hres : checkDayReset t s = s := by
      unfold checkDayReset
      rw [if_neg (not_not_intro hday)]
    unfold canTrade
    dsimp only
    rw [hres, hlock]
    rw [if_neg (by simp), if_pos hbr]
    exact ⟨rfl, rfl, rfl⟩
  · intro s t pnl hbr
    unfold recordPnL
    dsimp only
    rw [if_pos hbr]
    exact ⟨rfl, rfl⟩
  · intro s t tc u hlock hu hcase
    have hlock1 : (checkDayReset t s).locked = true := by
      unfold checkDayReset
      by_cases hday : dayOf t = s.currentDay
      · rw [if_neg (not_not_intro hday)]
        exact hlock
      · rw [if_pos hday]
        dsimp only
        rw [hlock, if_pos rfl, hu]
        dsimp only
        rcases hcase with hc | hc
        · exact absurd hc hday
        · rw [if_neg (not_le.mpr hc)]
    unfold canTrade
    dsimp only
    rw [hlock1]
    rw [if_pos rfl]
  · intro s t tc u hlock hu hday hle h0 hm hrr
    have hres : (checkDayReset t s).locked = false ∧
        (checkDayReset t s).dailyPnL = 0 := by
      unfold checkDayReset
      rw [if_pos hday]
      dsimp only
      rw [hlock, if_pos rfl, hu]
      dsimp only
      rw [if_pos hle]
      exact ⟨rfl, rfl⟩
    have hnl : ¬((checkDayReset t s).dailyPnL <
        -(balanceOf cfg tc * (cfg.maxDailyLossPct / 100))) := by
      rw [hres.2]
      exact not_lt.mpr (neg_nonpos.mpr h0)
    have hmd : marginDenied cfg tc = false := by
      unfold marginDenied
      rcases hm1 : coerceFalsy tc.margin with _ | m
      · rcases coerceFalsy tc.balance <;> rfl
      · rcases hb1 : coerceFalsy tc.balance with _ | b
        · rfl
        · exact decide_eq_false (not_lt.mpr (hm m b hm1 hb1))
    have hrrd : rrDenied cfg tc = false := by
      unfold rrDenied
      rcases hr1 : coerceFalsy tc.rrRatio with _ | rr
      · rfl
      · exact decide_eq_false (not_lt.mpr (hrr rr hr1))
    unfold canTrade
    dsimp only
    rw [hres.1, hmd, hrrd]
    rw [if_neg (by simp), if_neg hnl, if_neg (by simp), if_neg (by simp)]

/-- C2 witness: a −11 daily P&L against the default −10 limit trips the
breaker at minute 7200 (day 5), locking until minute 8640 (day 6); at
minute 8000 of day 5 even a fully qualifying context is denied; at minute
8641 of day 6 it is admitted again. -/
theorem C2_circuit_breaker_witness :
    (canTrade defaultConfig 7200 emptyTradeConfig breachedState).1 = false ∧
    (canTrade defaultConfig 7200 emptyTradeConfig breachedState).2.locked = true ∧
    (canTrade defaultConfig 7200 emptyTradeConfig breachedState).2.lockUntil =
      some 8640 ∧
    (canTrade defaultConfig 8000 qualifyingContext
      (lockBot 7200 breachedState)).1 = false ∧
    (canTrade defaultConfig 8641 qualifyingContext
      (lockBot 7200 breachedState)).1 = true := by
  have h := C2_circuit_breaker defaultConfig
  have h1 := h.1 breachedState 7200 emptyTradeConfig rfl rfl
    (by norm_num [balanceOf, emptyTradeConfig, coerceFalsy, breachedState,
      defaultConfig])
  have h3 := h.2.2.1 (lockBot 7200 breachedState) 8000 qualifyingContext 8640
    rfl rfl (Or.inr (by norm_num))
  have h4 := h.2.2.2 (lockBot 7200 breachedState) 8641 qualifyingContext 8640
    rfl rfl (by norm_num [dayOf, minutesPerDay, lockBot, breachedState])
    (by norm_num)
    (by norm_num [balanceOf, qualifyingContext, coerceFalsy, defaultConfig])
    (by
      intro m b hm hb
      simp only [qualifyingContext, coerceFalsy] at hm hb
      norm_num at hm hb
      rw [← hm, ← hb]
      norm_num [defaultConfig])
    (by
      intro rr hr
      simp only [qualifyingContext, coerceFalsy] at hr
      norm_num at hr
      rw [← hr]
      norm_num [defaultConfig])
  exact ⟨h1.1, h1.2.1, h1.2.2, h3, h4⟩

end Katlama
